import Mathlib

/-!
Verification of the falling-block puzzle engine in `src/script.js`.

The file shallowly embeds the core of the program: the board (grid,
`clearLines`, `collision`, `merge`), the piece data (`TETROS`,
`rotateMatrix`, the SRS kick tables), the 7-bag randomizer (`Bag`), and
the game-state machine (`spawnIfNeeded`, `rotate`, `move`, `softDrop`,
`hardDrop`, `lockDown`, `update`).

Modelling conventions:
- JS numbers that only ever hold integers (coordinates, scores, counters)
  become `Int` or `Nat`; millisecond timers, which the engine adds and
  compares but the claims only use at integer values, become `ℚ`
  (exact arithmetic; the decimal literals 0.0035 etc. are exact in `ℚ`).
- Grid cells hold `0` (empty, JS `0`) or a kind code `1..7`
  (JS stores the kind's name string; only truthiness and identity are used).
- JS truthiness tests (`if (v)`, `every(v => v)`) become `≠ 0` tests.
- Loops are embedded either structurally or with an explicit fuel that
  provably dominates the number of iterations of the JS loop.
-/

/-- The seven tetromino kinds, `'S','Z','L','J','T','O','I'` in the source. -/
inductive Kind where
  | S | Z | L | J | T | O | I
deriving DecidableEq, Repr

/-- Numeric cell code for a kind; the source stores the kind itself in grid
cells, we store `1..7` (and `0` for an empty cell). -/
def kindCode : Kind → Nat
  | .S => 1 | .Z => 2 | .L => 3 | .J => 4 | .T => 5 | .O => 6 | .I => 7

/-- The `TETROS` shape table of the source (0/1 entries). -/
def TETROS : Kind → List (List Nat)
  | .S => [[0,1,1],[1,1,0],[0,0,0]]
  | .Z => [[1,1,0],[0,1,1],[0,0,0]]
  | .L => [[1,0,0],[1,1,1],[0,0,0]]
  | .J => [[0,0,1],[1,1,1],[0,0,0]]
  | .T => [[0,1,0],[1,1,1],[0,0,0]]
  | .O => [[1,1],[1,1]]
  | .I => [[0,0,0,0],[1,1,1,1],[0,0,0,0],[0,0,0,0]]

/-- A board grid: a list of rows, each a list of cell codes. -/
abbrev Grid := List (List Nat)

/-- `COLS` of the source. -/
def COLS : Nat := 10

/-- `ROWS` of the source. -/
def ROWS : Nat := 20

/-- A fresh empty row, `Array(this.width).fill(0)` in the source. -/
def emptyRow : List Nat := List.replicate COLS 0

/-- The initial all-empty grid,
`Array.from({length: ROWS}, () => Array(COLS).fill(0))`. -/
def initialGrid : Grid := List.replicate ROWS emptyRow

/-- `this.grid[y].every(v => v)`: every cell of the row is truthy. -/
def fullRow (r : List Nat) : Bool := r.all (fun v => decide (v ≠ 0))

/-- The body of `Board.clearLines`'s downward `for` loop.  State: current
grid, current row index `y`, rows cleared so far.  A full row at `y` is
spliced out and an empty row unshifted at the top, and the same index is
re-examined (`y++` before the loop's `y--`); otherwise `y` decreases,
stopping after row 0.  `fuel` dominates the iteration count (each
iteration either lowers `y` or removes one full row from rows `0..y`). -/
def clearLoop : Nat → Grid → Nat → Nat → Grid × Nat
  | 0, g, _, c => (g, c)
  | fuel + 1, g, y, c =>
    if fullRow (g.getD y []) then
      clearLoop fuel (emptyRow :: g.eraseIdx y) y (c + 1)
    else if y = 0 then (g, c)
    else clearLoop fuel g (y - 1) c

/-- `Board.clearLines`: scan rows from `this.height - 1` down to 0.
The fuel `2 * ROWS + 1` dominates the at most `ROWS` index decrements
plus at most `ROWS` row removals of the JS loop. -/
def clearLines (g : Grid) : Grid × Nat := clearLoop (2 * ROWS + 1) g (ROWS - 1) 0

/-- A tetromino instance (`class Piece`): kind, current matrix, board
position of the matrix's top-left cell, orientation, locked flag. -/
structure Piece where
  type : Kind
  matrix : List (List Nat)
  x : Int
  y : Int
  rot : Nat
  locked : Bool
deriving DecidableEq, Repr

/-- `new Piece(type)`: spawn matrix from the shape table at `x = 3, y = 0`. -/
def mkPiece (k : Kind) : Piece :=
  { type := k, matrix := TETROS k, x := 3, y := 0, rot := 0, locked := false }

/-- `Board.collision(piece, offX, offY, mat)`: some truthy cell of `mat`,
at absolute coordinates `(piece.x + x + offX, piece.y + y + offY)`, is
outside `[0, width)` horizontally, at or below the floor (`ny >= height`),
or (only when `ny >= 0`) on an occupied grid cell. -/
def collision (grid : Grid) (p : Piece) (offX offY : Int) (mat : List (List Nat)) : Bool :=
  (List.range mat.length).any fun y =>
    (List.range ((mat.getD y []).length)).any fun x =>
      decide ((mat.getD y []).getD x 0 ≠ 0) &&
        (let nx : Int := p.x + x + offX
         let ny : Int := p.y + y + offY
         (decide (nx < 0) || decide ((COLS : Int) ≤ nx) || decide ((ROWS : Int) ≤ ny)) ||
           (decide (0 ≤ ny) && decide ((grid.getD ny.toNat []).getD nx.toNat 0 ≠ 0)))

/-- Write one cell of the grid.  `List.set` is a no-op at an index at or
beyond the list's length, and the guard skips negative column indices:
this coincides with the JS assignment `grid[ny][nx] = type` exactly when
the indices are in range (which `collision` guarantees for every merge
performed by the game; out of range the JS would instead throw or create
stray properties). -/
def setCell (g : Grid) (ny nx : Int) (v : Nat) : Grid :=
  if 0 ≤ nx then g.set ny.toNat ((g.getD ny.toNat []).set nx.toNat v) else g

/-- `Board.merge(piece)` restricted to its grid effect: write the piece's
kind into every truthy, on-board (`piece.y + y >= 0`) cell of its matrix.
(The `piece.locked = true` side effect is applied by `lockDown` below.) -/
def merge (g : Grid) (p : Piece) : Grid :=
  (List.range p.matrix.length).foldl
    (fun acc y =>
      (List.range ((p.matrix.getD y []).length)).foldl
        (fun acc2 x =>
          if (p.matrix.getD y []).getD x 0 ≠ 0 ∧ 0 ≤ p.y + y then
            setCell acc2 (p.y + y) (p.x + x) (kindCode p.type)
          else acc2)
        acc)
    g

/-- `rotateMatrix(m, dir)` of the source: clockwise (`dir > 0`) writes
`res[x][m.length-1-y] = m[y][x]`, counter-clockwise writes
`res[m[0].length-1-x][y] = m[y][x]`, into an `m.length` by `m[0].length`
zero array.  All matrices the game rotates are square, for which this is
exactly the result below (reading entry `(i, j)` of the result). -/
def rotateMatrix (m : List (List Nat)) (dir : Int) : List (List Nat) :=
  let N := m.length
  let w := (m.getD 0 []).length
  if dir > 0 then
    (List.range N).map fun i => (List.range w).map fun j => (m.getD (N - 1 - j) []).getD i 0
  else
    (List.range N).map fun i => (List.range w).map fun j => (m.getD j []).getD (w - 1 - i) 0

/-- `KICKS.default`: SRS kick offsets for S/Z/L/J/T, keyed by the
transition `from>to`; `none` for any other key (the JS lookup yields
`undefined`). -/
def kicksDefault (f t : Nat) : Option (List (Int × Int)) :=
  if f = 0 ∧ t = 1 then some [(0,0),(-1,0),(-1,1),(0,-2),(-1,-2)]
  else if f = 1 ∧ t = 0 then some [(0,0),(1,0),(1,-1),(0,2),(1,2)]
  else if f = 1 ∧ t = 2 then some [(0,0),(1,0),(1,-1),(0,2),(1,2)]
  else if f = 2 ∧ t = 1 then some [(0,0),(-1,0),(-1,1),(0,-2),(-1,-2)]
  else if f = 2 ∧ t = 3 then some [(0,0),(1,0),(1,1),(0,-2),(1,-2)]
  else if f = 3 ∧ t = 2 then some [(0,0),(-1,0),(-1,-1),(0,2),(-1,2)]
  else if f = 3 ∧ t = 0 then some [(0,0),(-1,0),(-1,-1),(0,2),(-1,2)]
  else if f = 0 ∧ t = 3 then some [(0,0),(1,0),(1,1),(0,-2),(1,-2)]
  else none

/-- `KICKS.I`: SRS kick offsets for the I kind. -/
def kicksI (f t : Nat) : Option (List (Int × Int)) :=
  if f = 0 ∧ t = 1 then some [(0,0),(-2,0),(1,0),(-2,-1),(1,2)]
  else if f = 1 ∧ t = 0 then some [(0,0),(2,0),(-1,0),(2,1),(-1,-2)]
  else if f = 1 ∧ t = 2 then some [(0,0),(-1,0),(2,0),(-1,2),(2,-1)]
  else if f = 2 ∧ t = 1 then some [(0,0),(1,0),(-2,0),(1,-2),(-2,1)]
  else if f = 2 ∧ t = 3 then some [(0,0),(2,0),(-1,0),(2,1),(-1,-2)]
  else if f = 3 ∧ t = 2 then some [(0,0),(-2,0),(1,0),(-2,-1),(1,2)]
  else if f = 3 ∧ t = 0 then some [(0,0),(1,0),(-2,0),(1,-2),(-2,1)]
  else if f = 0 ∧ t = 3 then some [(0,0),(-1,0),(2,0),(-1,2),(2,-1)]
  else none

/-- The target orientation computed by `Game.rotate`:
`(from + (dir > 0 ? 1 : 3)) % 4`. -/
def rotTarget (f : Nat) (dir : Int) : Nat := (f + (if dir > 0 then 1 else 3)) % 4

/-- `class Bag`'s refill pool, `['S','Z','L','J','T','O','I']`. -/
def baseBag : List Kind := [.S, .Z, .L, .J, .T, .O, .I]

/-- The destructuring swap `[pool[i], pool[j]] = [pool[j], pool[i]]`. -/
def swapIdx (l : List Kind) (a b : Nat) : List Kind :=
  (l.set a (l.getD b .S)).set b (l.getD a .S)

/-- The Fisher-Yates loop `for (i = pool.length-1; i > 0; i--)`: at index
`i + 1` the drawn value `Math.floor(Math.random() * (i+2))` is modelled by
the next entry of the random stream `rs` reduced mod `i + 2`, which ranges
over exactly the same set `{0, ..., i+1}` of indices. -/
def fyLoop : List Kind → Nat → List Nat → List Kind
  | l, 0, _ => l
  | l, i + 1, rs => fyLoop (swapIdx l (i + 1) (rs.headD 0 % (i + 2))) i rs.tail

/-- Refill of the bag: the 7 kinds, Fisher-Yates shuffled (6 swaps,
consuming 6 random values). -/
def refill (rs : List Nat) : List Kind := fyLoop baseBag 6 rs

/-- `Bag.next()` on state (pool, remaining random stream): refill the pool
when empty, then pop from the end. -/
def bagNext : List Kind × List Nat → Kind × (List Kind × List Nat)
  | ([], rs) => let p := refill rs; (p.getLastD .S, (p.dropLast, rs.drop 6))
  | (pool, rs) => (pool.getLastD .S, (pool.dropLast, rs))

/-- `n` successive `Bag.next()` calls, collecting the returned kinds. -/
def bagNexts : Nat → List Kind × List Nat → List Kind × (List Kind × List Nat)
  | 0, st => ([], st)
  | n + 1, st =>
    let r := bagNext st
    let rest := bagNexts n r.2
    (r.1 :: rest.1, rest.2)

/-- `class Game`'s state.  Randomness is modelled by carrying the future
outputs of `bag.next()` in `futureKinds`; the DOM/canvas effects
(`updateHUD`, `render`) and the render-only `clearedRows` list (always
reset to `[]`) have no game-state content and are not modelled. -/
structure Game where
  grid : Grid
  current : Piece
  nextQ : List Piece
  futureKinds : List Kind
  hold : Option Kind
  canHold : Bool
  score : Nat
  lines : Nat
  level : Nat
  dropInterval : ℚ
  elapsed : ℚ
  paused : Bool
  over : Bool
  lockDelay : ℚ
  lockTimer : ℚ
  grounded : Bool
  flashMs : ℚ
  shake : ℚ
  dasTimer : ℚ
  arrTimer : ℚ
  lastDir : Int
deriving DecidableEq

/-- `Game.spawnIfNeeded`: when the current piece is locked, dequeue the
next piece, reset it to spawn position `x = 3, y = -matrix.length + 1`,
enqueue a fresh bag draw, and flag game over (plus pause) if the fresh
piece immediately collides.  (The JS also covers a missing `current`; in
the model a current piece always exists.) -/
def spawnIfNeeded (g : Game) : Game :=
  if g.current.locked then
    let c0 := g.nextQ.headD (mkPiece .S)
    let c := { c0 with x := 3, y := -(c0.matrix.length : Int) + 1, rot := 0, locked := false }
    let g1 := { g with
      current := c
      nextQ := g.nextQ.tail ++ [mkPiece (g.futureKinds.headD .S)]
      futureKinds := g.futureKinds.tail
      canHold := true
      lockTimer := 0
      grounded := false }
    if collision g1.grid c 0 0 c.matrix then { g1 with over := true, paused := true } else g1
  else g

/-- `Game.setLevelByLines`: `level = max(1, floor(lines/10) + 1)` and
`dropInterval = max(80, 1000 - (level - 1) * 70)`. -/
def setLevelByLines (g : Game) : Game :=
  let lv := max 1 (g.lines / 10 + 1)
  { g with level := lv, dropInterval := max 80 (1000 - ((lv : ℚ) - 1) * 70) }

/-- `Game.rotate(dir)`: no-op for the O kind (the JS `return;` yields a
falsy value, embedded as `false`); otherwise compute the target
orientation, rotate the matrix, look up the kick table (`KICKS.I` for I,
`KICKS.default` otherwise, falling back to `[[0,0]]` on a missed key),
and apply the first offset whose proposed placement is collision-free;
a successful rotation that leaves the piece able to fall un-grounds it. -/
def rotate (g : Game) (dir : Int) : Game × Bool :=
  if g.current.type = Kind.O then (g, false)
  else
    let f := g.current.rot
    let t := rotTarget f dir
    let rotated := rotateMatrix g.current.matrix dir
    let table := (if g.current.type = Kind.I then kicksI f t else kicksDefault f t).getD [(0, 0)]
    match table.find? (fun off => !collision g.grid g.current off.1 off.2 rotated) with
    | some off =>
      let g1 := { g with current := { g.current with
        matrix := rotated, x := g.current.x + off.1, y := g.current.y + off.2, rot := t } }
      let g2 := if !collision g1.grid g1.current 0 1 g1.current.matrix then
          { g1 with grounded := false, lockTimer := 0 }
        else g1
      (g2, true)
    | none => (g, false)

/-- `Game.move(dx)`: shift horizontally when collision-free; a successful
move that leaves the piece able to fall un-grounds it. -/
def move (g : Game) (dx : Int) : Game :=
  if !collision g.grid g.current dx 0 g.current.matrix then
    let g1 := { g with current := { g.current with x := g.current.x + dx } }
    if !collision g1.grid g1.current 0 1 g1.current.matrix then
      { g1 with grounded := false, lockTimer := 0 }
    else g1
  else g

/-- `Game.softDrop()`: move down one row when free (scoring 1 point and
un-grounding) and report `true`; otherwise ground the piece and report
`false`. -/
def softDrop (g : Game) : Game × Bool :=
  if !collision g.grid g.current 0 1 g.current.matrix then
    ({ g with current := { g.current with y := g.current.y + 1 },
              score := g.score + 1, grounded := false, lockTimer := 0 }, true)
  else ({ g with grounded := true }, false)

/-- The `while (!collision(current, 0, 1)) { y++; dist++; }` loop of
`Game.hardDrop`, with fuel. -/
def fallLoop : Nat → Grid → Piece → Piece × Nat
  | 0, _, p => (p, 0)
  | fuel + 1, gr, p =>
    if collision gr p 0 1 p.matrix then (p, 0)
    else
      let r := fallLoop fuel gr { p with y := p.y + 1 }
      (r.1, r.2 + 1)

/-- Fuel dominating the descent of any piece with at least one truthy
cell: once `y` exceeds the floor every truthy cell collides. -/
def dropFuel (p : Piece) : Nat := ((ROWS : Int) - p.y).toNat + p.matrix.length + 1

/-- `Game.lockDown()`: merge the current piece into the board (this also
marks it locked), clear lines, on a nonzero clear apply the scoring table
`[0,100,300,500,800][cleared] * level` (at the pre-clear level), add to
`lines`, recompute level/speed, and set the flash/shake effects; on a zero
clear only bump the shake.  Then respawn and reset the lock bookkeeping. -/
def lockDown (g : Game) : Game :=
  let merged := merge g.grid g.current
  let cleared := (clearLines merged).2
  let g1 := { g with grid := (clearLines merged).1,
                     current := { g.current with locked := true } }
  let g2 :=
    if cleared ≠ 0 then
      let base := [0, 100, 300, 500, 800].getD cleared 0
      setLevelByLines { g1 with
        score := g1.score + base * g1.level
        lines := g1.lines + cleared
        flashMs := 220
        shake := min 0.6 (0.25 + (cleared : ℚ) * 0.12) }
    else { g1 with shake := max g1.shake 0.18 }
  let g3 := spawnIfNeeded g2
  { g3 with lockTimer := 0, grounded := false }

/-- `Game.hardDrop()`: drop to the floor, add `2 * distance` to the score,
then lock down immediately. -/
def hardDrop (g : Game) : Game :=
  let r := fallLoop (dropFuel g.current) g.grid g.current
  lockDown { g with current := r.1, score := g.score + 2 * r.2 }

/-- `DAS` of the source (ms). -/
def DAS : ℚ := 150

/-- `ARR` of the source (ms). -/
def ARR : ℚ := 40

/-- The `while (this.arrTimer >= ARR) { this.move(dir); this.arrTimer -= ARR; }`
loop of `Game.update`, with fuel. -/
def arrLoop : Nat → Game → Int → Game
  | 0, g, _ => g
  | fuel + 1, g, dir =>
    if ARR ≤ g.arrTimer then
      let g1 := move g dir
      arrLoop fuel { g1 with arrTimer := g1.arrTimer - ARR } dir
    else g

/-- `Game.update(delta)` with the two held-direction input flags
(`INPUT.left`, `INPUT.right`) passed explicitly: no-op when paused or
over; otherwise accumulate `elapsed`, decay flash and shake, run gravity
via `softDrop` when `elapsed` reaches `dropInterval`, resolve DAS/ARR
horizontal repeat, and finally the lock-delay expiry check.  The ARR fuel
`⌊arrTimer / ARR⌋ + 1` dominates the number of 40 ms repeats consumed. -/
def update (g : Game) (inputLeft inputRight : Bool) (delta : ℚ) : Game :=
  if g.paused || g.over then g
  else
    let g : Game := { g with elapsed := g.elapsed + delta }
    let g : Game := if 0 < g.flashMs then { g with flashMs := max 0 (g.flashMs - delta) } else g
    let g : Game := if 0 < g.shake then { g with shake := max 0 (g.shake - delta * 0.0035) } else g
    let g : Game :=
      if g.dropInterval ≤ g.elapsed then
        let g1 : Game := { g with elapsed := 0 }
        let r : Game × Bool := softDrop g1
        if !r.2 then { r.1 with grounded := true } else r.1
      else g
    let dir : Int := (if inputLeft then -1 else 0) + (if inputRight then 1 else 0)
    let g : Game :=
      if dir ≠ 0 then
        if g.lastDir ≠ dir then
          move { g with lastDir := dir, dasTimer := 0, arrTimer := 0 } dir
        else
          let g1 : Game := { g with dasTimer := g.dasTimer + delta }
          if DAS ≤ g1.dasTimer then
            let g2 : Game := { g1 with arrTimer := g1.arrTimer + delta }
            arrLoop ((g2.arrTimer / ARR).floor.toNat + 1) g2 dir
          else g1
      else { g with lastDir := 0, dasTimer := 0, arrTimer := 0 }
    if g.grounded then
      let g1 : Game := { g with lockTimer := g.lockTimer + delta }
      if !collision g1.grid g1.current 0 1 g1.current.matrix then
        { g1 with grounded := false, lockTimer := 0 }
      else if g1.lockDelay ≤ g1.lockTimer then
        lockDown { g1 with lockTimer := 0, grounded := false }
      else g1
    else g

/-- A board operation for the grid-shape invariant: merging a locked piece
or running a line clear. -/
inductive Op where
  | mergeOp (p : Piece)
  | clearOp
deriving DecidableEq

/-- Apply one board operation to a grid. -/
def applyOp (g : Grid) : Op → Grid
  | .mergeOp p => merge g p
  | .clearOp => (clearLines g).1

/-- Apply a sequence of board operations. -/
def applyOps (g : Grid) (ops : List Op) : Grid := ops.foldl applyOp g

/-- Along the trace, every merged piece is collision-free at its position
on the grid it is merged into (offsets 0,0). -/
def PreOK : Grid → List Op → Prop
  | _, [] => True
  | g, .mergeOp p :: t => collision g p 0 0 p.matrix = false ∧ PreOK (merge g p) t
  | g, .clearOp :: t => PreOK (clearLines g).1 t

/-- Well-formedness of a grid: 20 rows, each of 10 cells, every cell an
empty marker `0` or a kind code `1..7`. -/
def WF (g : Grid) : Prop :=
  g.length = ROWS ∧ ∀ r ∈ g, r.length = COLS ∧ ∀ c ∈ r, c ≤ 7

def numFull (g : Grid) : Nat := (g.filter fullRow).length

def mkGame (gr : Grid) (p : Piece) : Game :=
  { grid := gr, current := p, nextQ := [mkPiece .L, mkPiece .J], futureKinds := [],
    hold := none, canHold := true, score := 0, lines := 0, level := 1,
    dropInterval := 1000, elapsed := 0, paused := false, over := false,
    lockDelay := 500, lockTimer := 0, grounded := false, flashMs := 0, shake := 0,
    dasTimer := 0, arrTimer := 0, lastDir := 0 }

def wgridA : Grid :=
  List.replicate 15 emptyRow ++
    [List.replicate 10 1, [1,1,0,1,1,1,1,1,1,1], List.replicate 10 2,
     List.replicate 10 3, [0,0,0,0,0,5,5,0,0,0]]

def wgridB : Grid :=
  List.replicate 19 emptyRow ++ [[1, 1, 1, 1, 1, 1, 1, 1, 0, 0]]

def wGameB : Game := mkGame wgridB { mkPiece .O with x := 8, y := 18 }

lemma fullRow_emptyRow : fullRow emptyRow = false := by decide

lemma clearLoop_eq :
    ∀ (fuel : Nat) (A B : Grid) (c : Nat), A ≠ [] →
      (∀ r ∈ B, fullRow r = false) → A.length + numFull A ≤ fuel →
      clearLoop fuel (A ++ B) (A.length - 1) c =
        (List.replicate (numFull A) emptyRow ++ A.filter (fun r => !fullRow r) ++ B,
         c + numFull A) := by
  intro fuel
  induction fuel with
  | zero =>
    intro A B c hA _ hfuel
    have := List.length_pos.mpr hA
    omega
  | succ fuel ih =>
    intro A B c hA hB hfuel
    rcases List.eq_nil_or_concat' A with rfl | ⟨D, r, rfl⟩
    · exact absurd rfl hA
    · have hlen : (D ++ [r]).length - 1 = D.length := by simp
      have hgrid : (D ++ [r]) ++ B = D ++ (r :: B) := by simp
      have hget : ((D ++ [r]) ++ B).getD D.length [] = r := by
        rw [hgrid, List.getD_append_right _ _ _ _ le_rfl]
        simp
      by_cases hfull : fullRow r = true
      · have hNF : numFull (D ++ [r]) = numFull D + 1 := by
          simp [numFull, List.filter_append, hfull]
        have herase : ((D ++ [r]) ++ B).eraseIdx D.length = D ++ B := by
          rw [hgrid, List.eraseIdx_append_of_length_le le_rfl]
          simp
        have hstep : clearLoop (fuel + 1) ((D ++ [r]) ++ B) ((D ++ [r]).length - 1) c =
            clearLoop fuel ((emptyRow :: D) ++ B) ((emptyRow :: D).length - 1) (c + 1) := by
          rw [hlen]
          simp only [clearLoop, hget, hfull, if_true, herase]
          simp
        have hNF' : numFull (emptyRow :: D) = numFull D := by
          simp [numFull, List.filter_cons, fullRow_emptyRow]
        have hrec := ih (emptyRow :: D) B (c + 1) (by simp) hB
          (by simp only [List.length_cons, hNF']
              simp only [List.length_append, List.length_singleton] at hfuel
              omega)
        rw [hstep, hrec]
        rw [hNF, hNF']
        refine Prod.ext ?_ ?_
        · show List.replicate (numFull D) emptyRow ++
            (emptyRow :: D).filter (fun r => !fullRow r) ++ B =
            List.replicate (numFull D + 1) emptyRow ++
            (D ++ [r]).filter (fun r => !fullRow r) ++ B
          rw [List.filter_cons, List.filter_append]
          simp [fullRow_emptyRow, hfull, List.replicate_succ']
        · show c + 1 + numFull D = c + (numFull D + 1)
          omega
      · have hfull' : fullRow r = false := by
          cases h : fullRow r
          · rfl
          · exact absurd h hfull
        have hNF : numFull (D ++ [r]) = numFull D := by
          simp [numFull, List.filter_append, hfull']
        rcases eq_or_ne D [] with rfl | hD
        · -- A = [r], index 0, row not full: the loop returns.
          have : clearLoop (fuel + 1) (([] ++ [r]) ++ B) (([] ++ [r] : Grid).length - 1) c =
              (([] ++ [r]) ++ B, c) := by
            simp only [clearLoop, List.nil_append, List.length_singleton]
            simp [hget, hfull']
          rw [this]
          simp [hNF, numFull, hfull', List.filter_cons]
        · have hstep : clearLoop (fuel + 1) ((D ++ [r]) ++ B) ((D ++ [r]).length - 1) c =
              clearLoop fuel (D ++ (r :: B)) (D.length - 1) c := by
            rw [hlen, hgrid]
            have hD0 : D.length ≠ 0 := fun h => hD (List.eq_nil_of_length_eq_zero h)
            have hget2 : (D ++ (r :: B)).getD D.length [] = r := by
              rw [List.getD_append_right _ _ _ _ le_rfl]
              simp
            simp only [clearLoop]
            rw [hget2, if_neg (by simp [hfull']), if_neg hD0]
          have hrec := ih D (r :: B) c hD
            (by intro s hs
                rcases List.mem_cons.mp hs with rfl | hs
                · exact hfull'
                · exact hB _ hs)
            (by simp only [List.length_append, List.length_singleton] at hfuel
                rw [hNF] at hfuel
                omega)
          rw [hstep, hrec]
          rw [hNF]
          refine Prod.ext ?_ ?_
          · show List.replicate (numFull D) emptyRow ++
              D.filter (fun r => !fullRow r) ++ (r :: B) =
              List.replicate (numFull D) emptyRow ++
              (D ++ [r]).filter (fun r => !fullRow r) ++ B
            rw [List.filter_append]
            simp [hfull']
          · rfl

lemma clearLines_eq (g : Grid) (h : g.length = ROWS) :
    clearLines g =
      (List.replicate (numFull g) emptyRow ++ g.filter (fun r => !fullRow r), numFull g) := by
  have hne : g ≠ [] := by
    intro e
    rw [e] at h
    simp [ROWS] at h
  have hNF : numFull g ≤ g.length := List.length_filter_le _ _
  have hmain := clearLoop_eq (2 * ROWS + 1) g [] 0 hne (by simp)
    (by rw [h] at hNF ⊢; simp [ROWS] at hNF ⊢; omega)
  rw [List.append_nil, h] at hmain
  simpa [clearLines] using hmain

lemma collision_iff (grid : Grid) (p : Piece) (offX offY : Int) (mat : List (List Nat)) :
    collision grid p offX offY mat = true ↔
      ∃ ry rx : Nat, ry < mat.length ∧ rx < (mat.getD ry []).length ∧
        (mat.getD ry []).getD rx 0 ≠ 0 ∧
        (p.x + rx + offX < 0 ∨ (COLS : Int) ≤ p.x + rx + offX ∨
         (ROWS : Int) ≤ p.y + ry + offY ∨
         (0 ≤ p.y + ry + offY ∧
          (grid.getD (p.y + ry + offY).toNat []).getD (p.x + rx + offX).toNat 0 ≠ 0)) := by
  simp only [collision, List.any_eq_true, List.mem_range, Bool.and_eq_true,
    Bool.or_eq_true, decide_eq_true_eq]
  constructor
  · rintro ⟨ry, hry, rx, hrx, hv, hor⟩
    exact ⟨ry, rx, hry, hrx, hv, by tauto⟩
  · rintro ⟨ry, rx, hry, hrx, hv, hor⟩
    exact ⟨ry, hry, rx, hrx, hv, by tauto⟩

lemma any_congr' {α : Type} {l : List α} {f g : α → Bool} (h : ∀ a ∈ l, f a = g a) :
    l.any f = l.any g := by
  induction l with
  | nil => rfl
  | cons a t ihc => simp_all

lemma collision_shift_y (grid : Grid) (p : Piece) (k offX offY : Int)
    (mat : List (List Nat)) :
    collision grid { p with y := p.y + k } offX offY mat =
      collision grid p offX (offY + k) mat := by
  simp only [collision]
  refine any_congr' (fun ry _ => ?_)
  refine any_congr' (fun rx _ => ?_)
  have harith : p.y + k + ry + offY = p.y + ry + (offY + k) := by ring
  simp only [harith]

lemma find_first_eq {α : Type} (p : α → Bool) :
    ∀ (l : List α) (i : Nat) (hi : i < l.length),
      (∀ j, (hj : j < l.length) → j < i → p (l.get ⟨j, hj⟩) = false) →
      p (l.get ⟨i, hi⟩) = true →
      l.find? p = some (l.get ⟨i, hi⟩) := by
  intro l
  induction l with
  | nil => intro i hi; simp at hi
  | cons a t iht =>
    intro i hi hprev hp
    cases i with
    | zero =>
      simp only [List.get] at hp
      rw [List.find?_cons_of_pos _ hp]
      rfl
    | succ k =>
      have ha : p a = false := by
        have := hprev 0 (by simp) (by omega)
        simpa using this
      have hk : k < t.length := by simpa using hi
      have hrec : t.find? p = some (t.get ⟨k, hk⟩) := by
        apply iht k hk
        · intro j hj hjk
          have := hprev (j + 1) (by simpa using Nat.succ_lt_succ hj) (by omega)
          simpa using this
        · simpa using hp
      rw [List.find?_cons_of_neg _ (by simp [ha]), hrec]
      rfl

lemma kicksDefault_shape (f t : Nat) (l : List (Int × Int))
    (h : kicksDefault f t = some l) : l.length = 5 ∧ l.head? = some (0, 0) := by
  unfold kicksDefault at h
  split_ifs at h <;>
    first
    | exact Option.noConfusion h
    | (injection h with h2; subst h2; decide)

lemma kicksI_shape (f t : Nat) (l : List (Int × Int))
    (h : kicksI f t = some l) : l.length = 5 ∧ l.head? = some (0, 0) := by
  unfold kicksI at h
  split_ifs at h <;>
    first
    | exact Option.noConfusion h
    | (injection h with h2; subst h2; decide)

lemma kicks_exists (f : Nat) (dir : Int) (hf : f < 4) (hdir : dir = 1 ∨ dir = -1) :
    (kicksDefault f (rotTarget f dir)).isSome = true ∧
    (kicksI f (rotTarget f dir)).isSome = true := by
  rcases hdir with rfl | rfl <;> interval_cases f <;> decide

lemma count_set_add {α : Type} [DecidableEq α] :
    ∀ (l : List α) (i : Nat) (v k : α), (h : i < l.length) →
      (l.set i v).count k + (if l.get ⟨i, h⟩ = k then 1 else 0) =
        l.count k + (if v = k then 1 else 0) := by
  intro l
  induction l with
  | nil => intro i v k h; simp at h
  | cons a t iht =>
    intro i v k h
    cases i with
    | zero =>
      simp only [List.set, List.get, List.count_cons, beq_iff_eq]
      omega
    | succ j =>
      have hj : j < t.length := by simpa using h
      have := iht j v k hj
      simp only [List.set, List.get, List.count_cons, beq_iff_eq]
      omega

lemma swapIdx_length (l : List Kind) (a b : Nat) :
    (swapIdx l a b).length = l.length := by
  simp [swapIdx]

lemma count_swapIdx (l : List Kind) (a b : Nat) (k : Kind)
    (ha : a < l.length) (hb : b < l.length) :
    (swapIdx l a b).count k = l.count k := by
  unfold swapIdx
  have hb1 : b < (l.set a (l.getD b .S)).length := by simpa using hb
  have h1 := count_set_add l a (l.getD b .S) k ha
  have h2 := count_set_add (l.set a (l.getD b .S)) b (l.getD a .S) k hb1
  have hgb : (l.set a (l.getD b .S)).get ⟨b, hb1⟩ = l.getD b .S := by
    by_cases hab : a = b
    · subst hab
      simp only [List.get_eq_getElem]
      rw [List.getElem_set_self]
    · simp only [List.get_eq_getElem]
      rw [List.getElem_set_ne hab]
      exact (List.getD_eq_getElem _ _ hb).symm
  have hga : l.get ⟨a, ha⟩ = l.getD a .S := by
    rw [List.getD_eq_getElem _ _ ha]
    rfl
  rw [hgb] at h2
  rw [hga] at h1
  set x1 := (if l.getD a .S = k then 1 else 0) with hx1
  set x2 := (if l.getD b .S = k then 1 else 0) with hx2
  omega

lemma fyLoop_length : ∀ (i : Nat) (l : List Kind) (rs : List Nat),
    (fyLoop l i rs).length = l.length := by
  intro i
  induction i with
  | zero => intro l rs; rfl
  | succ j ihj =>
    intro l rs
    simp only [fyLoop]
    rw [ihj, swapIdx_length]

lemma fyLoop_count : ∀ (i : Nat) (l : List Kind) (rs : List Nat) (k : Kind),
    i + 1 ≤ l.length → (fyLoop l i rs).count k = l.count k := by
  intro i
  induction i with
  | zero => intro l rs k _; rfl
  | succ j ihj =>
    intro l rs k hlen
    simp only [fyLoop]
    have hswaplen : (swapIdx l (j + 1) (rs.headD 0 % (j + 2))).length = l.length :=
      swapIdx_length _ _ _
    rw [ihj _ _ _ (by omega)]
    exact count_swapIdx l (j + 1) (rs.headD 0 % (j + 2)) k (by omega)
      (by have := Nat.mod_lt (rs.headD 0) (show 0 < j + 2 by omega); omega)

lemma refill_length (rs : List Nat) : (refill rs).length = 7 := by
  unfold refill
  rw [fyLoop_length]
  rfl

lemma refill_count (rs : List Nat) (k : Kind) : (refill rs).count k = 1 := by
  unfold refill
  rw [fyLoop_count 6 baseBag rs k (by decide)]
  cases k <;> rfl

lemma bagNexts_pops : ∀ (n : Nat) (pool : List Kind) (rs : List Nat),
    pool.length = n → bagNexts n (pool, rs) = (pool.reverse, ([], rs)) := by
  intro n
  induction n with
  | zero =>
    intro pool rs hlen
    rw [List.length_eq_zero] at hlen
    subst hlen
    rfl
  | succ m ihm =>
    intro pool rs hlen
    rcases pool with _ | ⟨a, t⟩
    · simp at hlen
    · have hstep : bagNexts (m + 1) (a :: t, rs) =
          (((a :: t).getLastD .S) :: (bagNexts m ((a :: t).dropLast, rs)).1,
           (bagNexts m ((a :: t).dropLast, rs)).2) := rfl
      rcases List.eq_nil_or_concat' (a :: t) with h | ⟨L, b, hLb⟩
      · exact absurd h (by simp)
      · rw [hstep, hLb, List.getLastD_concat, List.dropLast_concat, List.reverse_concat]
        have hlenL : L.length = m := by
          rw [hLb] at hlen
          simp at hlen
          omega
        rw [ihm L rs hlenL]

lemma bag_first_seven (rs : List Nat) :
    (bagNexts 7 ([], rs)).1 = (refill rs).reverse := by
  have hlen : (refill rs).length = 7 := refill_length rs
  have hfirst : bagNext ([], rs) =
      ((refill rs).getLastD .S, ((refill rs).dropLast, rs.drop 6)) := rfl
  have hstep : bagNexts 7 ([], rs) =
      (((refill rs).getLastD .S) :: (bagNexts 6 ((refill rs).dropLast, rs.drop 6)).1,
       (bagNexts 6 ((refill rs).dropLast, rs.drop 6)).2) := rfl
  rcases List.eq_nil_or_concat' (refill rs) with h | ⟨L, b, hLb⟩
  · rw [h] at hlen
    simp at hlen
  · rw [hstep, hLb, List.getLastD_concat, List.dropLast_concat, List.reverse_concat]
    have hlenL : L.length = 6 := by
      rw [hLb] at hlen
      simp at hlen
      omega
    rw [bagNexts_pops 6 L (rs.drop 6) hlenL]

lemma collision_false_of_not_true {gr : Grid} {p : Piece} {offX offY : Int}
    {mat : List (List Nat)} (h : ¬ collision gr p offX offY mat = true) :
    collision gr p offX offY mat = false := by
  cases hc : collision gr p offX offY mat
  · rfl
  · exact absurd hc h

lemma fallLoop_correct :
    ∀ (fuel : Nat) (gr : Grid) (p : Piece),
      (∃ m : Nat, m < fuel ∧ collision gr p 0 ((m : Int) + 1) p.matrix = true) →
      ∃ n : Nat,
        fallLoop fuel gr p = ({ p with y := p.y + n }, n) ∧
        (∀ k : Nat, k < n → collision gr p 0 ((k : Int) + 1) p.matrix = false) ∧
        collision gr { p with y := p.y + n } 0 1 p.matrix = true := by
  intro fuel
  induction fuel with
  | zero =>
    rintro gr p ⟨m, hm, _⟩
    omega
  | succ f ihf =>
    rintro gr p ⟨m, hm, hcoll⟩
    by_cases h1 : collision gr p 0 1 p.matrix = true
    · have hp0 : ({ p with y := p.y + ((0 : Nat) : Int) } : Piece) = p := by
        have h : p.y + ((0 : Nat) : Int) = p.y := by push_cast; ring
        rw [h]
      refine ⟨0, ?_, ?_, ?_⟩
      · rw [hp0]
        simp only [fallLoop]
        rw [if_pos h1]
      · intro k hk
        omega
      · rw [hp0]
        exact h1
    · have h1' : collision gr p 0 1 p.matrix = false := collision_false_of_not_true h1
      have hm0 : m ≠ 0 := by
        intro e
        rw [e] at hcoll
        norm_num at hcoll
        exact h1 hcoll
      have hshift : ∀ off : Int,
          collision gr { p with y := p.y + 1 } 0 off p.matrix =
            collision gr p 0 (off + 1) p.matrix :=
        fun off => collision_shift_y gr p 1 0 off p.matrix
      have hm' : ∃ m' : Nat, m' < f ∧
          collision gr { p with y := p.y + 1 } 0 ((m' : Int) + 1)
            ({ p with y := p.y + 1 } : Piece).matrix = true := by
        refine ⟨m - 1, by omega, ?_⟩
        show collision gr { p with y := p.y + 1 } 0 ((((m - 1 : Nat)) : Int) + 1) p.matrix = true
        rw [hshift]
        have : (((m - 1 : Nat)) : Int) + 1 + 1 = (m : Int) + 1 := by
          omega
        rw [this]
        exact hcoll
      obtain ⟨n', heq, hfree, hblock⟩ := ihf gr { p with y := p.y + 1 } hm'
      have hyeq : ({ { p with y := p.y + 1 } with y := p.y + 1 + (n' : Int) } : Piece) =
          { p with y := p.y + ((n' + 1 : Nat) : Int) } := by
        have h : p.y + 1 + (n' : Int) = p.y + ((n' + 1 : Nat) : Int) := by
          push_cast
          ring
        rw [h]
      refine ⟨n' + 1, ?_, ?_, ?_⟩
      · simp only [fallLoop]
        rw [if_neg (by rw [h1']; exact Bool.false_ne_true)]
        show ((fallLoop f gr { p with y := p.y + 1 }).1,
              (fallLoop f gr { p with y := p.y + 1 }).2 + 1) = _
        rw [heq]
        show ({ { p with y := p.y + 1 } with y := p.y + 1 + (n' : Int) }, n' + 1) = _
        rw [hyeq]
      · intro k hk
        cases k with
        | zero =>
          show collision gr p 0 ((0 : Nat) + 1 : Int) p.matrix = false
          norm_num
          exact h1'
        | succ j =>
          have hfj := hfree j (by omega)
          rw [hshift] at hfj
          have : ((j : Int) + 1) + 1 = ((j + 1 : Nat) : Int) + 1 := by
            push_cast
            ring
          rw [this] at hfj
          exact hfj
      · rw [hyeq] at hblock
        exact hblock

lemma exists_deep_collision (gr : Grid) (p : Piece)
    (hcell : p.matrix.any (fun row => row.any (fun v => decide (v ≠ 0))) = true) :
    ∃ m : Nat, m < dropFuel p ∧ collision gr p 0 ((m : Int) + 1) p.matrix = true := by
  obtain ⟨row, hrowmem, hrow⟩ := List.any_eq_true.mp hcell
  obtain ⟨v, hvmem, hv⟩ := List.any_eq_true.mp hrow
  obtain ⟨ry, hry, hrowval⟩ := List.mem_iff_getElem.mp hrowmem
  obtain ⟨rx, hrx, hvval⟩ := List.mem_iff_getElem.mp hvmem
  have hgetrow : p.matrix.getD ry [] = row := by
    rw [List.getD_eq_getElem _ _ hry, hrowval]
  refine ⟨((ROWS : Int) - p.y).toNat + p.matrix.length, by unfold dropFuel; omega, ?_⟩
  rw [collision_iff]
  refine ⟨ry, rx, hry, ?_, ?_, Or.inr (Or.inr (Or.inl ?_))⟩
  · rw [hgetrow]
    exact hrx
  · rw [hgetrow, List.getD_eq_getElem _ _ hrx, hvval]
    exact of_decide_eq_true hv
  · have hle : (ROWS : Int) - p.y ≤ (((ROWS : Int) - p.y).toNat : Int) := Int.self_le_toNat _
    have hry' : ry < p.matrix.length := hry
    omega

lemma spawnIfNeeded_score (g : Game) : (spawnIfNeeded g).score = g.score := by
  simp only [spawnIfNeeded]
  split_ifs <;> rfl

lemma spawnIfNeeded_lines (g : Game) : (spawnIfNeeded g).lines = g.lines := by
  simp only [spawnIfNeeded]
  split_ifs <;> rfl

lemma spawnIfNeeded_level (g : Game) : (spawnIfNeeded g).level = g.level := by
  simp only [spawnIfNeeded]
  split_ifs <;> rfl

lemma spawnIfNeeded_dropInterval (g : Game) :
    (spawnIfNeeded g).dropInterval = g.dropInterval := by
  simp only [spawnIfNeeded]
  split_ifs <;> rfl

lemma lockDown_score (g : Game) :
    (lockDown g).score =
      g.score + [0, 100, 300, 500, 800].getD (clearLines (merge g.grid g.current)).2 0 * g.level := by
  by_cases hc : (clearLines (merge g.grid g.current)).2 = 0
  · simp [lockDown, spawnIfNeeded_score, setLevelByLines, hc]
  · simp [lockDown, spawnIfNeeded_score, setLevelByLines, hc]

lemma lockDown_lines (g : Game) :
    (lockDown g).lines = g.lines + (clearLines (merge g.grid g.current)).2 := by
  by_cases hc : (clearLines (merge g.grid g.current)).2 = 0
  · simp [lockDown, spawnIfNeeded_lines, setLevelByLines, hc]
  · simp [lockDown, spawnIfNeeded_lines, setLevelByLines, hc]

lemma lockDown_level_pos (g : Game) (hc : (clearLines (merge g.grid g.current)).2 ≠ 0) :
    (lockDown g).level =
      max 1 ((g.lines + (clearLines (merge g.grid g.current)).2) / 10 + 1) := by
  simp [lockDown, spawnIfNeeded_level, setLevelByLines, hc]

lemma lockDown_dropInterval_pos (g : Game)
    (hc : (clearLines (merge g.grid g.current)).2 ≠ 0) :
    (lockDown g).dropInterval =
      max 80 (1000 -
        (((max 1 ((g.lines + (clearLines (merge g.grid g.current)).2) / 10 + 1) : Nat) : ℚ) - 1) * 70) := by
  simp [lockDown, spawnIfNeeded_dropInterval, setLevelByLines, hc]

lemma lockDown_level_zero (g : Game) (hc : (clearLines (merge g.grid g.current)).2 = 0) :
    (lockDown g).level = g.level ∧ (lockDown g).dropInterval = g.dropInterval := by
  constructor
  · simp [lockDown, spawnIfNeeded_level, setLevelByLines, hc]
  · simp [lockDown, spawnIfNeeded_dropInterval, setLevelByLines, hc]

lemma update_gravity_eq (g : Game) (delta : ℚ)
    (hp : g.paused = false) (ho : g.over = false)
    (hel : g.dropInterval ≤ g.elapsed + delta)
    (hfree : collision g.grid g.current 0 1 g.current.matrix = false) :
    update g false false delta =
      { g with
        elapsed := 0,
        flashMs := if 0 < g.flashMs then max 0 (g.flashMs - delta) else g.flashMs,
        shake := if 0 < g.shake then max 0 (g.shake - delta * 0.0035) else g.shake,
        current := { g.current with y := g.current.y + 1 },
        score := g.score + 1,
        grounded := false,
        lockTimer := 0,
        lastDir := 0,
        dasTimer := 0,
        arrTimer := 0 } := by
  by_cases hflash : 0 < g.flashMs <;> by_cases hshake : 0 < g.shake <;>
    simp [update, softDrop, hp, ho, hel, hfree, hflash, hshake]

lemma update_gravity_blocked_eq (g : Game) (delta : ℚ)
    (hp : g.paused = false) (ho : g.over = false)
    (hel : g.dropInterval ≤ g.elapsed + delta)
    (hblocked : collision g.grid g.current 0 1 g.current.matrix = true)
    (hlock : g.lockTimer + delta < g.lockDelay) :
    update g false false delta =
      { g with
        elapsed := 0,
        flashMs := if 0 < g.flashMs then max 0 (g.flashMs - delta) else g.flashMs,
        shake := if 0 < g.shake then max 0 (g.shake - delta * 0.0035) else g.shake,
        grounded := true,
        lockTimer := g.lockTimer + delta,
        lastDir := 0,
        dasTimer := 0,
        arrTimer := 0 } := by
  have hnot : ¬ (g.lockDelay ≤ g.lockTimer + delta) := not_le.mpr hlock
  by_cases hflash : 0 < g.flashMs <;> by_cases hshake : 0 < g.shake <;>
    simp [update, softDrop, hp, ho, hel, hblocked, hflash, hshake, hnot]

lemma foldl_preserve {β : Type} {P : Grid → Prop} (f : Grid → β → Grid) :
    ∀ (l : List β) (g : Grid), (∀ gr b, P gr → P (f gr b)) → P g → P (l.foldl f g) := by
  intro l
  induction l with
  | nil => intro g _ hg; exact hg
  | cons b t iht =>
    intro g hstep hg
    exact iht (f g b) hstep (hstep g b hg)

lemma kindCode_le (k : Kind) : kindCode k ≤ 7 := by cases k <;> decide

lemma WF_setCell (g : Grid) (ny nx : Int) (v : Nat) (hv : v ≤ 7) (h : WF g) :
    WF (setCell g ny nx v) := by
  unfold setCell
  split_ifs with hnx
  · by_cases hny : ny.toNat < g.length
    · constructor
      · rw [List.length_set]
        exact h.1
      · intro r hr
        rcases List.mem_or_eq_of_mem_set hr with hr' | rfl
        · exact h.2 r hr'
        · have hold : g.getD ny.toNat [] ∈ g := by
            rw [List.getD_eq_getElem _ _ hny]
            exact List.getElem_mem hny
          obtain ⟨hlen10, hcells⟩ := h.2 _ hold
          constructor
          · rw [List.length_set]
            exact hlen10
          · intro c hc
            rcases List.mem_or_eq_of_mem_set hc with hc' | rfl
            · exact hcells c hc'
            · exact hv
    · rw [List.set_eq_of_length_le (by omega)]
      exact h
  · exact h

lemma WF_merge (g : Grid) (p : Piece) (h : WF g) : WF (merge g p) := by
  unfold merge
  apply foldl_preserve
  · intro gr y hgr
    apply foldl_preserve
    · intro gr2 x hgr2
      split_ifs with hcond
      · exact WF_setCell gr2 (p.y + y) (p.x + x) (kindCode p.type) (kindCode_le p.type) hgr2
      · exact hgr2
    · exact hgr
  · exact h

lemma WF_clearLines (g : Grid) (h : WF g) : WF (clearLines g).1 := by
  have hc := clearLines_eq g h.1
  rw [hc]
  constructor
  · rw [List.length_append, List.length_replicate]
    have hsplit : numFull g + (g.filter (fun r => !fullRow r)).length = g.length := by
      have h1 := List.length_eq_countP_add_countP (p := fullRow) (l := g)
      rw [List.countP_eq_length_filter, List.countP_eq_length_filter] at h1
      have hfun : (fun a => decide (¬ fullRow a = true)) = (fun r => !fullRow r) := by
        funext a
        cases fullRow a <;> rfl
      rw [hfun] at h1
      simp only [numFull]
      omega
    rw [← h.1]
    omega
  · intro r hr
    rcases List.mem_append.mp hr with hr' | hr'
    · have : r = emptyRow := List.eq_of_mem_replicate hr'
      subst this
      refine ⟨by decide, ?_⟩
      intro c hc
      have : c = 0 := List.eq_of_mem_replicate hc
      omega
    · exact h.2 r (List.mem_of_mem_filter hr')

lemma WF_initialGrid : WF initialGrid := by
  constructor
  · decide
  · intro r hr
    have : r = emptyRow := List.eq_of_mem_replicate hr
    subst this
    refine ⟨by decide, ?_⟩
    intro c hc
    have : c = 0 := List.eq_of_mem_replicate hc
    omega

lemma WF_applyOps : ∀ (ops : List Op) (g : Grid), WF g → WF (applyOps g ops) := by
  intro ops
  induction ops with
  | nil => intro g hg; exact hg
  | cons o t iht =>
    intro g hg
    cases o with
    | mergeOp p => exact iht (merge g p) (WF_merge g p hg)
    | clearOp => exact iht (clearLines g).1 (WF_clearLines g hg)

/-- C1: for every board grid (20 rows), `clearLines` removes exactly the
rows in which every cell is occupied, inserts that many empty rows at the
top, returns the number of removed rows, and preserves the relative order
and content of every remaining row beneath the inserted empty rows —
including adjacent full rows, which the loop handles by re-examining the
same row index after a removal. -/
theorem C1_clearLines_spec (g : Grid) (h : g.length = ROWS) :
    clearLines g =
      (List.replicate ((g.filter fullRow).length) emptyRow ++
         g.filter (fun r => !fullRow r),
       (g.filter fullRow).length) := by
  simpa [numFull] using clearLines_eq g h

/-- Witness for C1 on a concrete grid with adjacent full rows. -/
theorem C1_witness :
    wgridA.length = ROWS ∧
    clearLines wgridA =
      (List.replicate ((wgridA.filter fullRow).length) emptyRow ++
         wgridA.filter (fun r => !fullRow r),
       (wgridA.filter fullRow).length) :=
  ⟨by decide, C1_clearLines_spec wgridA (by decide)⟩

/-- C2: `Board.collision` returns true if and only if some filled cell of
the matrix, at absolute coordinates `(piece.x + x + offX, piece.y + y + offY)`,
is outside `[0, 10)` horizontally, has vertical coordinate at least 20, or
has nonnegative vertical coordinate and lies on an occupied grid cell; in
particular a filled cell with negative vertical coordinate never collides
against occupied cells, only against the horizontal bounds. -/
theorem C2_collision_iff (grid : Grid) (p : Piece) (offX offY : Int)
    (mat : List (List Nat)) :
    collision grid p offX offY mat = true ↔
      ∃ ry rx : Nat, ry < mat.length ∧ rx < (mat.getD ry []).length ∧
        (mat.getD ry []).getD rx 0 ≠ 0 ∧
        (p.x + rx + offX < 0 ∨ (COLS : Int) ≤ p.x + rx + offX ∨
         (ROWS : Int) ≤ p.y + ry + offY ∨
         (0 ≤ p.y + ry + offY ∧
          (grid.getD (p.y + ry + offY).toNat []).getD (p.x + rx + offX).toNat 0 ≠ 0)) :=
  collision_iff grid p offX offY mat

/-- C4: when `lockDown` clears `n` lines it adds exactly
`[0,100,300,500,800][n] * level` to the score (0 when `n = 0`), adds `n`
to `lines`, and for `n > 0` recomputes `level = max 1 (lines/10 + 1)` and
`dropInterval = max 80 (1000 - (level-1)*70)`; consequently lines 0, 10
and 140 give levels 1, 2, 15 and intervals 1000, 930, 80. -/
theorem C4_lockDown_scoring (g : Game)
    (h4 : (clearLines (merge g.grid g.current)).2 ≤ 4) :
    (lockDown g).score =
      g.score +
        [0, 100, 300, 500, 800].getD (clearLines (merge g.grid g.current)).2 0 * g.level ∧
    (lockDown g).lines = g.lines + (clearLines (merge g.grid g.current)).2 ∧
    (0 < (clearLines (merge g.grid g.current)).2 →
      (lockDown g).level =
        max 1 ((g.lines + (clearLines (merge g.grid g.current)).2) / 10 + 1) ∧
      (lockDown g).dropInterval =
        max 80 (1000 -
          (((max 1 ((g.lines + (clearLines (merge g.grid g.current)).2) / 10 + 1) : Nat) : ℚ)
            - 1) * 70)) ∧
    ((clearLines (merge g.grid g.current)).2 = 0 →
      (lockDown g).score = g.score ∧ (lockDown g).level = g.level ∧
      (lockDown g).dropInterval = g.dropInterval) ∧
    (∀ gl : Game, gl.lines = 0 →
      (setLevelByLines gl).level = 1 ∧ (setLevelByLines gl).dropInterval = 1000) ∧
    (∀ gl : Game, gl.lines = 10 →
      (setLevelByLines gl).level = 2 ∧ (setLevelByLines gl).dropInterval = 930) ∧
    (∀ gl : Game, gl.lines = 140 →
      (setLevelByLines gl).level = 15 ∧ (setLevelByLines gl).dropInterval = 80) := by
  refine ⟨lockDown_score g, lockDown_lines g, ?_, ?_, ?_, ?_, ?_⟩
  · intro hpos
    exact ⟨lockDown_level_pos g (by omega), lockDown_dropInterval_pos g (by omega)⟩
  · intro hz
    obtain ⟨hlv, hdi⟩ := lockDown_level_zero g hz
    refine ⟨?_, hlv, hdi⟩
    rw [lockDown_score g, hz]
    simp
  · intro gl hl
    constructor
    · simp [setLevelByLines, hl]
    · simp [setLevelByLines, hl]
      norm_num
  · intro gl hl
    constructor
    · simp [setLevelByLines, hl]
    · simp [setLevelByLines, hl]
      norm_num
  · intro gl hl
    constructor
    · simp [setLevelByLines, hl]
    · simp [setLevelByLines, hl]
      norm_num

/-- Witness for C4: locking an O piece that completes the bottom row
scores exactly 100 at level 1. -/
theorem C4_witness : (lockDown wGameB).score = 100 := by
  have h := (C4_lockDown_scoring wGameB (by decide)).1
  rw [h]
  decide

/-- C5: `hardDrop` moves the current piece down one row at a time until a
further move would collide (`n` rows, characterized by the collision
tests), adds exactly `2 * n` to the score, and immediately performs
lock-down on the dropped state — bypassing the lock delay — so the score
never decreases. -/
theorem C5_hardDrop (g : Game)
    (hcell : g.current.matrix.any (fun row => row.any (fun v => decide (v ≠ 0))) = true) :
    ∃ n : Nat,
      (∀ k : Nat, k < n →
        collision g.grid g.current 0 ((k : Int) + 1) g.current.matrix = false) ∧
      collision g.grid { g.current with y := g.current.y + n } 0 1 g.current.matrix = true ∧
      hardDrop g =
        lockDown { g with current := { g.current with y := g.current.y + n },
                          score := g.score + 2 * n } ∧
      g.score ≤ (hardDrop g).score := by
  obtain ⟨n, heq, hfree, hblock⟩ := fallLoop_correct (dropFuel g.current) g.grid g.current
    (exists_deep_collision g.grid g.current hcell)
  have hmain : hardDrop g =
      lockDown { g with current := { g.current with y := g.current.y + n },
                        score := g.score + 2 * n } := by
    unfold hardDrop
    rw [heq]
  refine ⟨n, hfree, hblock, hmain, ?_⟩
  rw [hmain, lockDown_score]
  set b := [0, 100, 300, 500, 800].getD
    (clearLines (merge
      ({ g with current := { g.current with y := g.current.y + n },
                score := g.score + 2 * n } : Game).grid
      ({ g with current := { g.current with y := g.current.y + n },
                score := g.score + 2 * n } : Game).current)).2 0 with hb
  simp only []
  omega

/-- Witness for C5: hard-dropping a T piece on the empty board never
decreases the score. -/
theorem C5_witness :
    (mkGame initialGrid (mkPiece .T)).score ≤
      (hardDrop (mkGame initialGrid (mkPiece .T))).score := by
  obtain ⟨n, h1, h2, h3, h4⟩ := C5_hardDrop (mkGame initialGrid (mkPiece .T)) (by decide)
  exact h4

/-- C7: for every game state whose current piece has kind O, `rotate`
returns false (the JS returns `undefined`, falsy) and leaves the game —
in particular the piece's orientation, position and matrix — unchanged. -/
theorem C7_rotate_O (g : Game) (dir : Int) (h : g.current.type = Kind.O) :
    rotate g dir = (g, false) := by
  simp [rotate, h]

/-- Witness for C7 on a concrete O piece. -/
theorem C7_witness :
    rotate (mkGame initialGrid (mkPiece .O)) 1 = (mkGame initialGrid (mkPiece .O), false) :=
  C7_rotate_O (mkGame initialGrid (mkPiece .O)) 1 rfl

/-- C9: for every orientation below 4 and direction in `{-1,1}`, the
transition key computed by `rotate` is present in both kick tables, and
every key of either table maps to exactly 5 offsets whose first is
`(0,0)`; hence the `[[0,0]]` fallback in `rotate` is unreachable for
valid orientations. -/
theorem C9_kicks_closed :
    (∀ f : Nat, ∀ dir : Int, f < 4 → (dir = 1 ∨ dir = -1) →
      (kicksDefault f (rotTarget f dir)).isSome = true ∧
      (kicksI f (rotTarget f dir)).isSome = true) ∧
    (∀ f t : Nat, ∀ l : List (Int × Int),
      kicksDefault f t = some l ∨ kicksI f t = some l →
      l.length = 5 ∧ l.head? = some (0, 0)) := by
  constructor
  · exact fun f dir hf hdir => kicks_exists f dir hf hdir
  · rintro f t l (h | h)
    · exact kicksDefault_shape f t l h
    · exact kicksI_shape f t l h

/-- Witness for C9 at the clockwise transition from orientation 0. -/
theorem C9_witness :
    ((kicksDefault 0 (rotTarget 0 1)).isSome = true ∧
      (kicksI 0 (rotTarget 0 1)).isSome = true) ∧
    (([(0,0),(-1,0),(-1,1),(0,-2),(-1,-2)] : List (Int × Int)).length = 5 ∧
      ([(0,0),(-1,0),(-1,1),(0,-2),(-1,-2)] : List (Int × Int)).head? = some (0, 0)) :=
  ⟨C9_kicks_closed.1 0 1 (by decide) (Or.inl rfl),
   C9_kicks_closed.2 0 1 _ (Or.inl (by decide))⟩

/-- C8: for every random stream, the 7 consecutive `next()` calls starting
at a bag boundary (empty pool) return each of the 7 kinds exactly once:
the outputs have length 7 and every kind occurs with count 1. -/
theorem C8_bag_window (rs : List Nat) (k : Kind) :
    ((bagNexts 7 ([], rs)).1).count k = 1 ∧ ((bagNexts 7 ([], rs)).1).length = 7 := by
  rw [bag_first_seven]
  constructor
  · rw [List.count_reverse]
    exact refill_count rs k
  · rw [List.length_reverse, refill_length]

/-- C3: for every non-O current piece with orientation in `{0,1,2,3}` and
direction in `{-1,1}`, `rotate` computes the target orientation
`(from+1) % 4` for `dir = 1` and `(from+3) % 4` for `dir = -1`, looks up
the 5 kick offsets for that transition (the I kind in its own table, all
other kinds in the shared one), applies the first offset at which the
rotated matrix is collision-free — updating matrix, x, y and orientation
and returning true — and when no offset is collision-free returns false
with the whole game state (hence the piece) unchanged. -/
theorem C3_rotate_spec (g : Game) (dir : Int)
    (hO : g.current.type ≠ Kind.O) (hrot : g.current.rot < 4)
    (hdir : dir = 1 ∨ dir = -1) :
    ∃ tbl : List (Int × Int),
      (if g.current.type = Kind.I then
          kicksI g.current.rot
            (if dir = 1 then (g.current.rot + 1) % 4 else (g.current.rot + 3) % 4)
        else
          kicksDefault g.current.rot
            (if dir = 1 then (g.current.rot + 1) % 4 else (g.current.rot + 3) % 4)) =
        some tbl ∧
      tbl.length = 5 ∧
      (∀ i : Nat, (hi : i < tbl.length) →
        (∀ j : Nat, (hj : j < tbl.length) → j < i →
          collision g.grid g.current (tbl.get ⟨j, hj⟩).1 (tbl.get ⟨j, hj⟩).2
            (rotateMatrix g.current.matrix dir) = true) →
        collision g.grid g.current (tbl.get ⟨i, hi⟩).1 (tbl.get ⟨i, hi⟩).2
          (rotateMatrix g.current.matrix dir) = false →
        ((rotate g dir).2 = true ∧
         (rotate g dir).1.current.matrix = rotateMatrix g.current.matrix dir ∧
         (rotate g dir).1.current.x = g.current.x + (tbl.get ⟨i, hi⟩).1 ∧
         (rotate g dir).1.current.y = g.current.y + (tbl.get ⟨i, hi⟩).2 ∧
         (rotate g dir).1.current.rot =
           (if dir = 1 then (g.current.rot + 1) % 4 else (g.current.rot + 3) % 4))) ∧
      ((∀ off ∈ tbl,
          collision g.grid g.current off.1 off.2
            (rotateMatrix g.current.matrix dir) = true) →
        rotate g dir = (g, false)) := by
  have htarget : rotTarget g.current.rot dir =
      (if dir = 1 then (g.current.rot + 1) % 4 else (g.current.rot + 3) % 4) := by
    rcases hdir with rfl | rfl <;> simp [rotTarget]
  have hsome : (if g.current.type = Kind.I then
      kicksI g.current.rot (rotTarget g.current.rot dir)
    else kicksDefault g.current.rot (rotTarget g.current.rot dir)).isSome = true := by
    by_cases hI : g.current.type = Kind.I
    · rw [if_pos hI]
      exact (kicks_exists g.current.rot dir hrot hdir).2
    · rw [if_neg hI]
      exact (kicks_exists g.current.rot dir hrot hdir).1
  obtain ⟨tbl, htbl⟩ := Option.isSome_iff_exists.mp hsome
  have hshape : tbl.length = 5 ∧ tbl.head? = some (0, 0) := by
    by_cases hI : g.current.type = Kind.I
    · rw [if_pos hI] at htbl
      exact kicksI_shape _ _ _ htbl
    · rw [if_neg hI] at htbl
      exact kicksDefault_shape _ _ _ htbl
  have htbl2 := htbl
  rw [htarget] at htbl2
  have hrw : rotate g dir =
      match tbl.find? (fun off =>
          !collision g.grid g.current off.1 off.2 (rotateMatrix g.current.matrix dir)) with
      | some off =>
        ((if !collision g.grid
              { g.current with
                matrix := rotateMatrix g.current.matrix dir,
                x := g.current.x + off.1,
                y := g.current.y + off.2,
                rot := rotTarget g.current.rot dir } 0 1
              (rotateMatrix g.current.matrix dir) then
            { g with
              current := { g.current with
                           matrix := rotateMatrix g.current.matrix dir,
                           x := g.current.x + off.1,
                           y := g.current.y + off.2,
                           rot := rotTarget g.current.rot dir },
              grounded := false,
              lockTimer := 0 }
          else
            { g with
              current := { g.current with
                           matrix := rotateMatrix g.current.matrix dir,
                           x := g.current.x + off.1,
                           y := g.current.y + off.2,
                           rot := rotTarget g.current.rot dir } }),
         true)
      | none => (g, false) := by
    simp only [rotate, if_neg hO, htbl, Option.getD_some]
  refine ⟨tbl, htbl2, hshape.1, ?_, ?_⟩
  · intro i hi hprev hok
    have hfind : tbl.find? (fun off =>
        !collision g.grid g.current off.1 off.2 (rotateMatrix g.current.matrix dir)) =
        some (tbl.get ⟨i, hi⟩) := by
      apply find_first_eq _ tbl i hi
      · intro j hj hji
        rw [hprev j hj hji]
        rfl
      · rw [hok]
        rfl
    rw [hrw, hfind]
    dsimp only
    refine ⟨?_, ?_, ?_, ?_, ?_⟩ <;>
      first
      | rfl
      | (split_ifs <;> rfl)
      | (rw [← htarget]; split_ifs <;> rfl)
  · intro hall
    have hfind : tbl.find? (fun off =>
        !collision g.grid g.current off.1 off.2 (rotateMatrix g.current.matrix dir)) =
        none := by
      rw [List.find?_eq_none]
      intro x hx
      rw [hall x hx]
      simp
    rw [hrw, hfind]

/-- Witness for C3: a clockwise rotation of a T piece on the empty board
succeeds with the in-place kick. -/
theorem C3_witness :
    (rotate (mkGame initialGrid (mkPiece .T)) 1).2 = true ∧
    (rotate (mkGame initialGrid (mkPiece .T)) 1).1.current.rot = 1 ∧
    (rotate (mkGame initialGrid (mkPiece .T)) 1).1.current.x =
      (mkGame initialGrid (mkPiece .T)).current.x ∧
    (rotate (mkGame initialGrid (mkPiece .T)) 1).1.current.y =
      (mkGame initialGrid (mkPiece .T)).current.y := by
  obtain ⟨tbl, htbl, hlen, hfirst, hnone⟩ :=
    C3_rotate_spec (mkGame initialGrid (mkPiece .T)) 1 (by decide) (by decide) (Or.inl rfl)
  rw [if_neg (by decide)] at htbl
  rw [show kicksDefault (mkGame initialGrid (mkPiece .T)).current.rot
      (if (1 : Int) = 1 then ((mkGame initialGrid (mkPiece .T)).current.rot + 1) % 4
       else ((mkGame initialGrid (mkPiece .T)).current.rot + 3) % 4) =
      some [(0,0),(-1,0),(-1,1),(0,-2),(-1,-2)] from by decide] at htbl
  have htbl' : tbl = [(0,0),(-1,0),(-1,1),(0,-2),(-1,-2)] :=
    ((Option.some.injEq _ _).mp htbl.symm)
  subst htbl'
  have h := hfirst 0 (by decide) (fun j hj hj0 => absurd hj0 (by omega)) (by decide)
  refine ⟨h.1, ?_, ?_, ?_⟩
  · rw [h.2.2.2.2]
    decide
  · rw [h.2.2.1]
    decide
  · rw [h.2.2.2.1]
    decide

/-- C6 counterexample: on an active game with the drop interval elapsed
and a free cell below, the gravity step of `update` does change the score
(the claim asserts it leaves the score unchanged): gravity is implemented
by calling `softDrop`, which awards its 1 point. -/
theorem C6_counterexample :
    (update (mkGame initialGrid (mkPiece .T)) false false 1000).score ≠
      (mkGame initialGrid (mkPiece .T)).score := by
  rw [update_gravity_eq (mkGame initialGrid (mkPiece .T)) 1000 rfl rfl
    (by norm_num [mkGame]) (by decide)]
  decide

/-- C6 (amended): in an `update(delta)` call on an active game where the
accumulated elapsed time reaches `dropInterval`, the gravity step resets
elapsed to 0 and performs a soft drop.  If the cell below the current
piece is free, the piece moves down one row, the score increases by 1
(the soft-drop point awarded by the reused `softDrop`) and
grounded/lockTimer are cleared.  If it is blocked, the gravity step sets
`grounded := true` and changes nothing else — in particular the score and
the piece are unchanged — and then (separately from gravity) the
lock-delay step accumulates `delta` into `lockTimer`, stated here below
the expiry threshold so that no lock-down fires.  Besides these effects,
the elapsed reset, the flash/shake decay of step 1 and the input-repeat
reset (no direction held), nothing else changes. -/
theorem C6_update_gravity (g : Game) (delta : ℚ)
    (hp : g.paused = false) (ho : g.over = false)
    (hel : g.dropInterval ≤ g.elapsed + delta) :
    (collision g.grid g.current 0 1 g.current.matrix = false →
      update g false false delta =
        { g with
          elapsed := 0,
          flashMs := if 0 < g.flashMs then max 0 (g.flashMs - delta) else g.flashMs,
          shake := if 0 < g.shake then max 0 (g.shake - delta * 0.0035) else g.shake,
          current := { g.current with y := g.current.y + 1 },
          score := g.score + 1,
          grounded := false,
          lockTimer := 0,
          lastDir := 0,
          dasTimer := 0,
          arrTimer := 0 }) ∧
    (collision g.grid g.current 0 1 g.current.matrix = true →
      g.lockTimer + delta < g.lockDelay →
      update g false false delta =
        { g with
          elapsed := 0,
          flashMs := if 0 < g.flashMs then max 0 (g.flashMs - delta) else g.flashMs,
          shake := if 0 < g.shake then max 0 (g.shake - delta * 0.0035) else g.shake,
          grounded := true,
          lockTimer := g.lockTimer + delta,
          lastDir := 0,
          dasTimer := 0,
          arrTimer := 0 }) :=
  ⟨fun hfree => update_gravity_eq g delta hp ho hel hfree,
   fun hblocked hlock => update_gravity_blocked_eq g delta hp ho hel hblocked hlock⟩

/-- Witness for C6 (amended), exercising both gravity branches: a J piece
with a free cell below moves down and scores the soft-drop point, and a T
piece resting on the floor is grounded with nothing else but the timers
changed. -/
theorem C6_witness :
    update (mkGame initialGrid (mkPiece .J)) false false 1000 =
      { mkGame initialGrid (mkPiece .J) with
        elapsed := 0,
        current := { mkPiece .J with y := 1 },
        score := 1,
        grounded := false,
        lockTimer := 0,
        lastDir := 0,
        dasTimer := 0,
        arrTimer := 0 } ∧
    update { mkGame initialGrid { mkPiece .T with y := 18 } with elapsed := 900 }
        false false 100 =
      { mkGame initialGrid { mkPiece .T with y := 18 } with
        elapsed := 0,
        grounded := true,
        lockTimer := 100,
        lastDir := 0,
        dasTimer := 0,
        arrTimer := 0 } := by
  constructor
  · rw [(C6_update_gravity (mkGame initialGrid (mkPiece .J)) 1000 rfl rfl
      (by norm_num [mkGame])).1 (by decide)]
    norm_num [mkGame, mkPiece]
  · rw [(C6_update_gravity
      { mkGame initialGrid { mkPiece .T with y := 18 } with elapsed := 900 } 100 rfl rfl
      (by norm_num [mkGame])).2 (by decide) (by norm_num [mkGame])]
    norm_num [mkGame, mkPiece]

/-- C10: starting from the all-empty 20 by 10 grid, after any sequence of
`merge` operations (each on a piece that is collision-free at offsets
0,0) and `clearLines` operations, the grid still has exactly 20 rows of
10 cells whose values are the empty marker or one of the 7 kind codes;
and a collision-free piece only ever writes at in-bounds coordinates. -/
theorem C10_grid_invariant (ops : List Op) (hpre : PreOK initialGrid ops) :
    WF (applyOps initialGrid ops) ∧
    (∀ gr : Grid, ∀ p : Piece, collision gr p 0 0 p.matrix = false →
      ∀ ry rx : Nat, ry < p.matrix.length → rx < (p.matrix.getD ry []).length →
        (p.matrix.getD ry []).getD rx 0 ≠ 0 → 0 ≤ p.y + ry →
        0 ≤ p.x + rx ∧ p.x + rx < (COLS : Int) ∧ p.y + ry < (ROWS : Int)) := by
  constructor
  · exact WF_applyOps ops initialGrid WF_initialGrid
  · intro gr p hcol ry rx hry hrx hv hyn
    have hiff := collision_iff gr p 0 0 p.matrix
    have hnot : ¬ (∃ ry rx : Nat, ry < p.matrix.length ∧ rx < (p.matrix.getD ry []).length ∧
        (p.matrix.getD ry []).getD rx 0 ≠ 0 ∧
        (p.x + rx + 0 < 0 ∨ (COLS : Int) ≤ p.x + rx + 0 ∨
         (ROWS : Int) ≤ p.y + ry + 0 ∨
         (0 ≤ p.y + ry + 0 ∧
          (gr.getD (p.y + ry + 0).toNat []).getD (p.x + rx + 0).toNat 0 ≠ 0))) := by
      intro hX
      rw [hcol] at hiff
      exact Bool.false_ne_true (hiff.mpr hX)
    refine ⟨?_, ?_, ?_⟩
    · by_contra hc
      exact hnot ⟨ry, rx, hry, hrx, hv, Or.inl (by omega)⟩
    · by_contra hc
      exact hnot ⟨ry, rx, hry, hrx, hv, Or.inr (Or.inl (by omega))⟩
    · by_contra hc
      exact hnot ⟨ry, rx, hry, hrx, hv, Or.inr (Or.inr (Or.inl (by omega)))⟩

/-- Witness for C10: merging an O piece at the bottom of the empty board
and clearing lines keeps the grid well-formed. -/
theorem C10_witness :
    WF (applyOps initialGrid
      [Op.mergeOp { mkPiece .O with x := 4, y := 18 }, Op.clearOp]) ∧
    (∀ gr : Grid, ∀ p : Piece, collision gr p 0 0 p.matrix = false →
      ∀ ry rx : Nat, ry < p.matrix.length → rx < (p.matrix.getD ry []).length →
        (p.matrix.getD ry []).getD rx 0 ≠ 0 → 0 ≤ p.y + ry →
        0 ≤ p.x + rx ∧ p.x + rx < (COLS : Int) ∧ p.y + ry < (ROWS : Int)) :=
  C10_grid_invariant [Op.mergeOp { mkPiece .O with x := 4, y := 18 }, Op.clearOp]
    ⟨by decide, trivial⟩
